import Mathlib

/-!
# Verification of the `rust-neuralnet` layer propagation and gradient engine

Shallow embedding of the crate's core (src/activation.rs, src/layer.rs,
src/network.rs) and proofs about it.

Modelling conventions:
* The crate's scalar `Float = f64` is modelled by exact rationals `ℚ`; the
  claims under study are about the algebraic structure of the computations,
  not about rounding.
* `ndarray` 2-d arrays are modelled by `Mat`: runtime dimensions plus a total
  entry function (entries outside the dimensions are irrelevant; statements
  about matrix contents only quantify over in-range indices, or use `Mat.Eqv`).
* Operations that panic in Rust (`ndarray::dot` or `Zip` on mismatched
  shapes, `assert_eq!`) are modelled in `Option`, with `none` standing for a
  panic.
* The crate's error type is `ResultString = Result<T, String>`; the two error
  strings actually produced (the shape-mismatch message of
  `Layer::forward_propagation`, which embeds both dimensions, and the
  "no layers defined" message of `NeuralNetwork::run_forward`) are modelled by
  the structured type `NNErr` carrying the same information.
* The `Activation` trait objects stored in a `Layer` are modelled by a pair of
  scalar functions applied elementwise: all four implementations in
  src/activation.rs (`Identity`, `Sigmoid`, `TanH`, `Rectifier`) are
  elementwise maps of a scalar function.
-/

namespace RustNeuralnet

/-- A 2-d array (`ndarray::Array2<Float>`): runtime dimensions and a total
entry function. Only entries `i < rows`, `j < cols` are meaningful. -/
structure Mat where
  rows : Nat
  cols : Nat
  entry : Nat → Nat → ℚ

/-- A 1-d array (`ndarray::Array1<Float>`). -/
structure Vec1 where
  len : Nat
  entry : Nat → ℚ

/-- `Array2::zeros((r, c))`. -/
def Mat.zeros (r c : Nat) : Mat := ⟨r, c, fun _ _ => 0⟩

/-- `Array1::zeros(n)`. -/
def Vec1.zeros (n : Nat) : Vec1 := ⟨n, fun _ => 0⟩

/-- Matrix product, `a.dot(&b)` on matching inner dimensions. -/
def Mat.dot (a b : Mat) : Mat :=
  ⟨a.rows, b.cols, fun i j => ∑ k ∈ Finset.range a.cols, a.entry i k * b.entry k j⟩

/-- Transpose, `a.t()`. -/
def Mat.transpose (a : Mat) : Mat := ⟨a.cols, a.rows, fun i j => a.entry j i⟩

/-- Elementwise difference `a - b` (on equal shapes). -/
def Mat.sub (a b : Mat) : Mat :=
  ⟨a.rows, a.cols, fun i j => a.entry i j - b.entry i j⟩

/-- Elementwise (Hadamard) product `a * b` (on equal shapes). -/
def Mat.hadamard (a b : Mat) : Mat :=
  ⟨a.rows, a.cols, fun i j => a.entry i j * b.entry i j⟩

/-- Exact shape agreement, as required by `ndarray::Zip` and checked before
each elementwise operation of the embedding. -/
def Mat.sameShape (a b : Mat) : Prop := a.rows = b.rows ∧ a.cols = b.cols

instance (a b : Mat) : Decidable (a.sameShape b) := by
  unfold Mat.sameShape; infer_instance

/-- Entrywise agreement on the meaningful index range, together with equal
dimensions: equality of the arrays the `Mat`s denote. -/
def Mat.Eqv (a b : Mat) : Prop :=
  a.rows = b.rows ∧ a.cols = b.cols ∧
    ∀ i < a.rows, ∀ j < a.cols, a.entry i j = b.entry i j

/-- An activation function (the `Activation<F, D>` trait): a scalar function
and its scalar derivative, applied elementwise over an array. -/
structure Activation where
  compute : ℚ → ℚ
  compute_derivative : ℚ → ℚ

/-- Elementwise application of `Activation::compute` over a 2-d array. -/
def Activation.computeM (a : Activation) (m : Mat) : Mat :=
  ⟨m.rows, m.cols, fun i j => a.compute (m.entry i j)⟩

/-- Elementwise application of `Activation::compute_derivative`. -/
def Activation.derivM (a : Activation) (m : Mat) : Mat :=
  ⟨m.rows, m.cols, fun i j => a.compute_derivative (m.entry i j)⟩

/-- The `Identity` activation of src/activation.rs: `compute` clones its
input, `compute_derivative` maps every entry to one. -/
def identityActivation : Activation :=
  { compute := fun v => v
    compute_derivative := fun _ => 1 }

/-- The `Rectifier` (ReLU) activation of src/activation.rs:
`compute` replaces `v` by `0` when `v < 0`, `compute_derivative` yields `0`
when `v < 0` and `1` otherwise. -/
def rectifierActivation : Activation :=
  { compute := fun v => if v < 0 then 0 else v
    compute_derivative := fun v => if v < 0 then (0 : ℚ) else 1 }

/-- The two error messages the crate can actually put in its
`ResultString` errors, as structured data:
`shapeMismatch c r` stands for the `Layer.forward` message embedding the
input column count `c` and the weight row count `r`; `emptyTopology` stands
for the `"NeuralNetwork.run_foward : no layers defined."` message. -/
inductive NNErr where
  | shapeMismatch (inputCols weightRows : Nat)
  | emptyTopology
  deriving DecidableEq

/-- The `Layer<F>` struct of src/layer.rs: activation, the two weight
matrices, and the cached results mutated by the forward and backward passes. -/
structure Layer where
  activation : Activation
  inputs_weights : Mat
  outputs : Mat
  outputs_weights : Mat
  layer_inputs_sum : Mat
  layer_inputs_sum_activated : Mat
  layer_outputs_sum : Mat
  backprop_error_1 : Mat
  backprop_error_2 : Mat
  costs : Vec1
  cost_d_inputs : Mat
  cost_d_outputs : Mat

/-- The record built by `Layer::new` after its `assert_eq!` passes: all
cached results zero-initialised, `outputs` zero-initialised at the
*dimensions of `inputs_weights`* (as in the source). -/
def Layer.init (a : Activation) (inputs_weights outputs_weights : Mat) : Layer :=
  { activation := a
    inputs_weights := inputs_weights
    outputs := Mat.zeros inputs_weights.rows inputs_weights.cols
    outputs_weights := outputs_weights
    layer_inputs_sum := Mat.zeros 0 0
    layer_inputs_sum_activated := Mat.zeros 0 0
    layer_outputs_sum := Mat.zeros 0 0
    backprop_error_1 := Mat.zeros 0 0
    backprop_error_2 := Mat.zeros 0 0
    costs := Vec1.zeros 0
    cost_d_inputs := Mat.zeros 0 0
    cost_d_outputs := Mat.zeros 0 0 }

/-- `Layer::new`: asserts (panics unless) `inputs_weights.cols() ==
outputs_weights.rows()`, then builds the fresh layer. `none` models the
`assert_eq!` panic. -/
def Layer.new (a : Activation) (inputs_weights outputs_weights : Mat) :
    Option Layer :=
  if inputs_weights.cols = outputs_weights.rows then
    some (Layer.init a inputs_weights outputs_weights)
  else none

/-- `Layer::forward_propagation` (src/layer.rs lines 116-130).
Returns the shape-mismatch error when `inputs.cols() != inputs_weights.rows()`;
otherwise computes the four intermediate matrices, stores them in the layer
and returns the updated layer together with (a view of) `outputs`.
The second `dot` panics (modelled by `none`) when the layer invariant
`inputs_weights.cols = outputs_weights.rows` established by `Layer::new`
does not hold. -/
def Layer.forward_propagation (l : Layer) (inputs : Mat) :
    Option (Except NNErr (Layer × Mat)) :=
  if inputs.cols ≠ l.inputs_weights.rows then
    some (.error (.shapeMismatch inputs.cols l.inputs_weights.rows))
  else
    let layer_inputs_sum := inputs.dot l.inputs_weights
    let layer_inputs_sum_activated := l.activation.computeM layer_inputs_sum
    if layer_inputs_sum_activated.cols ≠ l.outputs_weights.rows then none
    else
      let layer_outputs_sum := layer_inputs_sum_activated.dot l.outputs_weights
      let outputs := l.activation.computeM layer_outputs_sum
      some (.ok
        ({ l with
            layer_inputs_sum := layer_inputs_sum
            layer_inputs_sum_activated := layer_inputs_sum_activated
            layer_outputs_sum := layer_outputs_sum
            outputs := outputs }, outputs))

/-- `Layer::cost_gradient_mse` (src/layer.rs lines 165-183).
No staleness or shape check is performed by the source; each `ndarray`
binary operation or `dot` panics (modelled by `none`) when its operands'
shapes disagree. Note the source computes
`outputs_delta = expected_outputs - &self.outputs`. Returns the updated
layer and the pair `(cost_d_inputs, cost_d_outputs)`. -/
def Layer.cost_gradient_mse (l : Layer) (inputs expected_outputs : Mat) :
    Option (Layer × Mat × Mat) :=
  let outputs_derivative := l.activation.derivM l.layer_outputs_sum
  if ¬ expected_outputs.sameShape l.outputs then none
  else
    let outputs_delta := expected_outputs.sub l.outputs
    if ¬ outputs_delta.sameShape outputs_derivative then none
    else
      let backprop_error_1 := outputs_delta.hadamard outputs_derivative
      if l.layer_inputs_sum_activated.transpose.cols ≠ backprop_error_1.rows then none
      else
        let cost_d_outputs :=
          l.layer_inputs_sum_activated.transpose.dot backprop_error_1
        let inputs_derivative := l.activation.derivM l.layer_inputs_sum
        if backprop_error_1.cols ≠ l.outputs_weights.transpose.rows then none
        else
          let tmp := backprop_error_1.dot l.outputs_weights.transpose
          if ¬ tmp.sameShape inputs_derivative then none
          else
            let backprop_error_2 := tmp.hadamard inputs_derivative
            if inputs.transpose.cols ≠ backprop_error_2.rows then none
            else
              let cost_d_inputs := inputs.transpose.dot backprop_error_2
              some
                ({ l with
                    backprop_error_1 := backprop_error_1
                    cost_d_outputs := cost_d_outputs
                    backprop_error_2 := backprop_error_2
                    cost_d_inputs := cost_d_inputs },
                  cost_d_inputs, cost_d_outputs)

/-- `Layer::cost_mse` (src/layer.rs lines 218-234). The `inputs` argument is
taken (as in the source signature) but never read. The first `Zip` panics
(`none`) unless the cached `outputs` and `expected_outputs` have exactly the
same shape; it squares the entrywise difference, and the second `Zip` stores
half of each column sum into `costs`. -/
def Layer.cost_mse (l : Layer) (inputs expected_outputs : Mat) :
    Option (Layer × Vec1) :=
  if ¬ expected_outputs.sameShape l.outputs then none
  else
    let squared_diffs : Mat :=
      ⟨expected_outputs.rows, expected_outputs.cols,
        fun i j => (l.outputs.entry i j - expected_outputs.entry i j) ^ 2⟩
    let costs : Vec1 :=
      ⟨expected_outputs.cols,
        fun j => 1 / 2 * ∑ i ∈ Finset.range expected_outputs.rows,
          squared_diffs.entry i j⟩
    some ({ l with costs := costs }, costs)

/-- The `NeuralNetwork` struct of src/network.rs. -/
structure NeuralNetwork where
  layers : List Layer

/-- The loop body of `NeuralNetwork::run_forward`: `layer_result` is
overwritten by each layer's `forward_propagation(&inputs)` — every layer
receives the same `inputs` — and the accumulator is returned once the list is
exhausted. A layer whose forward pass fails is left unmutated. -/
def runForwardLoop (inputs : Mat) :
    List Layer → Except NNErr Mat → Option (List Layer × Except NNErr Mat)
  | [], layer_result => some ([], layer_result)
  | l :: ls, _ =>
    match l.forward_propagation inputs with
    | none => none
    | some (.error e) =>
      match runForwardLoop inputs ls (.error e) with
      | none => none
      | some (ls', r) => some (l :: ls', r)
    | some (.ok (l', out)) =>
      match runForwardLoop inputs ls (.ok out) with
      | none => none
      | some (ls', r) => some (l' :: ls', r)

/-- `NeuralNetwork::run_forward` (src/network.rs lines 44-50): `layer_result`
starts as the "no layers defined" error and is overwritten by each layer's
result in turn. -/
def NeuralNetwork.run_forward (net : NeuralNetwork) (inputs : Mat) :
    Option (NeuralNetwork × Except NNErr Mat) :=
  match runForwardLoop inputs net.layers (.error .emptyTopology) with
  | none => none
  | some (ls, r) => some (⟨ls⟩, r)

/-! ## Dimension and entry lemmas for the matrix operations -/

@[simp] theorem Mat.dot_rows (a b : Mat) : (a.dot b).rows = a.rows := rfl

@[simp] theorem Mat.dot_cols (a b : Mat) : (a.dot b).cols = b.cols := rfl

@[simp] theorem Mat.transpose_rows (a : Mat) : a.transpose.rows = a.cols := rfl

@[simp] theorem Mat.transpose_cols (a : Mat) : a.transpose.cols = a.rows := rfl

@[simp] theorem Mat.sub_rows (a b : Mat) : (a.sub b).rows = a.rows := rfl

@[simp] theorem Mat.sub_cols (a b : Mat) : (a.sub b).cols = a.cols := rfl

@[simp] theorem Mat.hadamard_rows (a b : Mat) : (a.hadamard b).rows = a.rows := rfl

@[simp] theorem Mat.hadamard_cols (a b : Mat) : (a.hadamard b).cols = a.cols := rfl

@[simp] theorem Activation.computeM_rows (a : Activation) (m : Mat) :
    (a.computeM m).rows = m.rows := rfl

@[simp] theorem Activation.computeM_cols (a : Activation) (m : Mat) :
    (a.computeM m).cols = m.cols := rfl

@[simp] theorem Activation.derivM_rows (a : Activation) (m : Mat) :
    (a.derivM m).rows = m.rows := rfl

@[simp] theorem Activation.derivM_cols (a : Activation) (m : Mat) :
    (a.derivM m).cols = m.cols := rfl

theorem Mat.dot_entry (a b : Mat) (i j : Nat) :
    (a.dot b).entry i j = ∑ k ∈ Finset.range a.cols, a.entry i k * b.entry k j := rfl

/-- `Identity::compute` clones its argument, so its elementwise lift is the
identity on `Mat` (by structure eta). -/
theorem identity_computeM (m : Mat) : identityActivation.computeM m = m := rfl

/-- The square identity matrix used for the round-trip property. -/
def idMat (n : Nat) : Mat := ⟨n, n, fun i j => if i = j then 1 else 0⟩

/-- Multiplying on the right by `idMat n` leaves the meaningful entries of a
matrix with `n` columns unchanged. -/
theorem dot_idMat_entry (a : Mat) (n i j : Nat) (hc : a.cols = n) (hj : j < n) :
    (a.dot (idMat n)).entry i j = a.entry i j := by
  rw [Mat.dot_entry]
  simp only [idMat, hc, mul_ite, mul_one, mul_zero]
  rw [Finset.sum_ite_eq' (Finset.range n) j (fun k => a.entry i k)]
  simp [Finset.mem_range.mpr hj]

/-! ## Characterisation of a successful forward pass -/

/-- When the input has as many columns as `inputs_weights` has rows and the
`Layer::new` invariant `inputs_weights.cols = outputs_weights.rows` holds,
`forward_propagation` succeeds: it stores the four intermediate matrices in
the layer (leaving every other field unchanged) and returns the final
activated output. -/
theorem forward_propagation_eq (l : Layer) (inputs : Mat)
    (hcols : inputs.cols = l.inputs_weights.rows)
    (hinv : l.inputs_weights.cols = l.outputs_weights.rows) :
    l.forward_propagation inputs =
      some (.ok
        ({ l with
            layer_inputs_sum := inputs.dot l.inputs_weights
            layer_inputs_sum_activated :=
              l.activation.computeM (inputs.dot l.inputs_weights)
            layer_outputs_sum :=
              (l.activation.computeM (inputs.dot l.inputs_weights)).dot
                l.outputs_weights
            outputs :=
              l.activation.computeM
                ((l.activation.computeM (inputs.dot l.inputs_weights)).dot
                  l.outputs_weights) },
          l.activation.computeM
            ((l.activation.computeM (inputs.dot l.inputs_weights)).dot
              l.outputs_weights))) := by
  simp [Layer.forward_propagation, hcols, hinv]

/-! ## Concrete fixtures (used by counterexamples, code-bug evaluations and
witnesses) -/

/-- The `r × c` matrix all of whose entries are `q`. -/
def matC (r c : Nat) (q : ℚ) : Mat := ⟨r, c, fun _ _ => q⟩

/-- The `1 × 1` input matrix `[[1]]`. -/
def xOne : Mat := matC 1 1 1

/-- A fresh two-stage layer with `1 × 1` weights `[[1]]`, `[[1]]` and the
`Identity` activation, as built by `Layer::new`. -/
def layerUnit : Layer := Layer.init identityActivation (matC 1 1 1) (matC 1 1 1)

/-- A fresh layer with weights `[[2]]` and `[[3]]`: its forward pass maps a
`1 × 1` input `[[x]]` to `[[6 * x]]`. -/
def layerDoubleTriple : Layer :=
  Layer.init identityActivation (matC 1 1 2) (matC 1 1 3)

/-- A fresh layer with weights `[[5]]` and `[[7]]`: its forward pass maps a
`1 × 1` input `[[x]]` to `[[35 * x]]`. -/
def layerFiveSeven : Layer :=
  Layer.init identityActivation (matC 1 1 5) (matC 1 1 7)

/-- A fresh layer whose `inputs_weights` is `2 × 1`: it rejects every input
matrix with one column. -/
def layerNeedsTwo : Layer :=
  Layer.init identityActivation (matC 2 1 1) (matC 1 1 1)

/-! ## C3 — forward propagation computes and caches the four intermediates

The purely functional part of the claim holds; the "no other observable
effect" part is contradicted by a leftover debug `println!` in the source
(see RESULTS), so the claim is filed as a code bug with this theorem proving
the part the code does honour. -/

/-- C3: for every two-stage layer and input with `inputs.cols =
inputs_weights.rows` (and the `Layer::new` invariant), `forward` returns
`activation.compute(activation.compute(inputs · input_weights) ·
output_weights)`, caches the four intermediate matrices on the layer
(overwriting the prior cache) and leaves every other field unchanged. -/
theorem forward_propagation_computes_and_caches (l : Layer) (inputs : Mat)
    (hcols : inputs.cols = l.inputs_weights.rows)
    (hinv : l.inputs_weights.cols = l.outputs_weights.rows) :
    l.forward_propagation inputs =
      some (.ok
        ({ l with
            layer_inputs_sum := inputs.dot l.inputs_weights
            layer_inputs_sum_activated :=
              l.activation.computeM (inputs.dot l.inputs_weights)
            layer_outputs_sum :=
              (l.activation.computeM (inputs.dot l.inputs_weights)).dot
                l.outputs_weights
            outputs :=
              l.activation.computeM
                ((l.activation.computeM (inputs.dot l.inputs_weights)).dot
                  l.outputs_weights) },
          l.activation.computeM
            ((l.activation.computeM (inputs.dot l.inputs_weights)).dot
              l.outputs_weights))) :=
  forward_propagation_eq l inputs hcols hinv

/-- Witness for C3 at the concrete layer `layerUnit` and input `[[1]]`. -/
theorem forward_propagation_computes_and_caches_witness :
    layerUnit.forward_propagation xOne =
      some (.ok
        ({ layerUnit with
            layer_inputs_sum := xOne.dot layerUnit.inputs_weights
            layer_inputs_sum_activated :=
              layerUnit.activation.computeM (xOne.dot layerUnit.inputs_weights)
            layer_outputs_sum :=
              (layerUnit.activation.computeM
                (xOne.dot layerUnit.inputs_weights)).dot layerUnit.outputs_weights
            outputs :=
              layerUnit.activation.computeM
                ((layerUnit.activation.computeM
                  (xOne.dot layerUnit.inputs_weights)).dot
                  layerUnit.outputs_weights) },
          layerUnit.activation.computeM
            ((layerUnit.activation.computeM
              (xOne.dot layerUnit.inputs_weights)).dot
              layerUnit.outputs_weights))) :=
  forward_propagation_computes_and_caches layerUnit xOne rfl rfl

/-! ## C4 — the shape guard of the forward pass -/

/-- C4: under the `Layer::new` invariant, `forward_propagation` returns the
`ShapeMismatch` error carrying both dimensions whenever `inputs.cols ≠
inputs_weights.rows`, returns a success (no such error) whenever they agree,
and never panics (`none` models a panic). -/
theorem forward_propagation_shape_guard (l : Layer) (inputs : Mat)
    (hinv : l.inputs_weights.cols = l.outputs_weights.rows) :
    (inputs.cols ≠ l.inputs_weights.rows →
      l.forward_propagation inputs =
        some (.error (.shapeMismatch inputs.cols l.inputs_weights.rows))) ∧
    (inputs.cols = l.inputs_weights.rows →
      ∃ l' out, l.forward_propagation inputs = some (.ok (l', out))) ∧
    l.forward_propagation inputs ≠ none := by
  refine ⟨fun h => by simp [Layer.forward_propagation, h], fun h =>
    ⟨_, _, forward_propagation_eq l inputs h hinv⟩, ?_⟩
  by_cases h : inputs.cols = l.inputs_weights.rows
  · rw [forward_propagation_eq l inputs h hinv]
    simp
  · simp [Layer.forward_propagation, h]

/-- Witness for C4: `layerUnit` applied to the `1 × 2` input `[[1, 1]]`
(two columns against one weight row). -/
theorem forward_propagation_shape_guard_witness :
    ((matC 1 2 1).cols ≠ layerUnit.inputs_weights.rows →
      layerUnit.forward_propagation (matC 1 2 1) =
        some (.error
          (.shapeMismatch (matC 1 2 1).cols layerUnit.inputs_weights.rows))) ∧
    ((matC 1 2 1).cols = layerUnit.inputs_weights.rows →
      ∃ l' out, layerUnit.forward_propagation (matC 1 2 1) =
        some (.ok (l', out))) ∧
    layerUnit.forward_propagation (matC 1 2 1) ≠ none :=
  forward_propagation_shape_guard layerUnit (matC 1 2 1) rfl

/-! ## C9 — the Rectifier activation -/

/-- C9: elementwise, `Rectifier::compute` returns `x` where `x ≥ 0` and `0`
elsewhere, `Rectifier::compute_derivative` returns `1` where `x ≥ 0` and `0`
elsewhere, and in particular the derivative at exactly `0` is `1`. -/
theorem rectifier_relu_formulas (m : Mat) (i j : Nat) :
    (rectifierActivation.computeM m).entry i j =
      (if 0 ≤ m.entry i j then m.entry i j else 0) ∧
    (rectifierActivation.derivM m).entry i j =
      (if 0 ≤ m.entry i j then 1 else 0) ∧
    rectifierActivation.compute_derivative 0 = 1 := by
  refine ⟨?_, ?_, by norm_num [rectifierActivation]⟩ <;>
    · simp only [Activation.computeM, Activation.derivM, rectifierActivation]
      rcases lt_or_le (m.entry i j) 0 with h | h
      · rw [if_pos h, if_neg (not_le.mpr h)]
      · rw [if_neg (not_lt.mpr h), if_pos h]

/-! ## C10 — `cost_mse` never reads its `inputs` argument -/

/-- C10: for any layer state (hence any cached outputs) and any expected
matrix, `cost_mse` returns the same result for every pair of `inputs`
arguments: the parameter is never read. -/
theorem cost_mse_independent_of_inputs (l : Layer)
    (inputs1 inputs2 expected : Mat) :
    l.cost_mse inputs1 expected = l.cost_mse inputs2 expected := rfl

/-! ## C1 — `run_forward` does not thread the layers' outputs

`NeuralNetwork::run_forward` passes the *original* `inputs` to every layer
and keeps only the last layer's result, so on a two-layer network the result
is `L2.forward(X)`, not `L2.forward(L1.forward(X))`. -/

/-- C1, evaluated at the failing input: on the two-layer network
`[layerDoubleTriple, layerFiveSeven]` and input `[[1]]`, `run_forward`
returns `[[35]]` (the second layer applied to the original input) while the
sequential composition claimed by the spec returns `[[210]]`. -/
theorem run_forward_not_threaded :
    (match (NeuralNetwork.mk [layerDoubleTriple, layerFiveSeven]).run_forward
        xOne with
      | some (_, .ok o) => some (o.entry 0 0)
      | _ => none) = some 35 ∧
    (match layerDoubleTriple.forward_propagation xOne with
      | some (.ok (_, o1)) =>
        match layerFiveSeven.forward_propagation o1 with
        | some (.ok (_, o2)) => some (o2.entry 0 0)
        | _ => none
      | _ => none) = some 210 ∧
    (35 : ℚ) ≠ 210 := by
  refine ⟨?_, ?_, by norm_num⟩ <;>
    norm_num [layerDoubleTriple, layerFiveSeven, xOne, matC, Layer.init,
      Layer.forward_propagation, Mat.dot, Activation.computeM,
      identityActivation, Finset.sum_range_one, Mat.zeros,
      NeuralNetwork.run_forward, runForwardLoop]

/-! ## C6 — a rejected layer's error is not propagated -/

/-- C6, evaluated at the failing input: the first layer of
`[layerNeedsTwo, layerFiveSeven]` rejects the input `[[1]]` with the
`ShapeMismatch` error carrying both dimensions, yet `run_forward` keeps
looping and returns the *second* layer's successful result `[[35]]`,
discarding the error. The zero-layer part of the claim does hold: an empty
network yields the "no layers defined" error. -/
theorem run_forward_discards_layer_error :
    layerNeedsTwo.forward_propagation xOne =
      some (.error (.shapeMismatch 1 2)) ∧
    (match (NeuralNetwork.mk [layerNeedsTwo, layerFiveSeven]).run_forward
        xOne with
      | some (_, .ok o) => some (o.entry 0 0)
      | _ => none) = some 35 ∧
    (NeuralNetwork.mk []).run_forward xOne =
      some (⟨[]⟩, .error .emptyTopology) := by
  refine ⟨rfl, ?_, rfl⟩
  norm_num [layerNeedsTwo, layerFiveSeven, xOne, matC, Layer.init,
    Layer.forward_propagation, Mat.dot, Activation.computeM,
    identityActivation, Finset.sum_range_one, Mat.zeros,
    NeuralNetwork.run_forward, runForwardLoop]

/-! ## C5 — there is no StaleState check

`cost_mse` (and `cost_gradient_mse`) never produce a staleness error: their
source has no such branch and `cost_mse`'s return type has no error channel
at all. On a fresh layer they either panic on a shape disagreement with the
zero-initialised cache or happily return a value computed from it. -/

/-- Counterexample to C5: `layerUnit` is exactly the layer built by
`Layer::new` (so no `forward` call ever happened), yet `cost_mse` returns
the value `[1/2]` — computed from the zero-initialised cached outputs —
instead of failing with a StaleState error. -/
theorem cost_mse_without_forward_returns_value :
    Layer.new identityActivation (matC 1 1 1) (matC 1 1 1) = some layerUnit ∧
    (match layerUnit.cost_mse xOne xOne with
      | some (_, c) => some (c.entry 0)
      | none => none) = some (1 / 2) := by
  refine ⟨rfl, ?_⟩
  norm_num [layerUnit, xOne, matC, Layer.init, Layer.cost_mse, Mat.sameShape,
    Mat.zeros, Finset.sum_range_one]

/-- C5 as amended: on a layer fresh out of `Layer::new`, `cost_mse` performs
no staleness check — it panics (`none`) exactly when the expected matrix
disagrees in shape with the zero-initialised cached outputs (whose dimensions
are those of `inputs_weights`), and otherwise returns the cost of the all-zero
cached outputs; no StaleState error is ever produced. -/
theorem cost_mse_no_staleness_check (a : Activation) (wi wo inputs expected : Mat)
    (l : Layer) (hnew : Layer.new a wi wo = some l) :
    (¬ (expected.rows = wi.rows ∧ expected.cols = wi.cols) →
      l.cost_mse inputs expected = none) ∧
    ((expected.rows = wi.rows ∧ expected.cols = wi.cols) →
      ∃ l' c, l.cost_mse inputs expected = some (l', c) ∧
        c.len = expected.cols ∧
        ∀ j, c.entry j =
          1 / 2 * ∑ i ∈ Finset.range expected.rows, expected.entry i j ^ 2) := by
  rw [Layer.new] at hnew
  split at hnew
  · rw [Option.some.injEq] at hnew
    subst hnew
    constructor
    · intro h
      rw [Layer.cost_mse, if_pos]
      simpa [Layer.init, Mat.sameShape, Mat.zeros] using h
    · intro h
      rw [Layer.cost_mse,
        if_neg (by simp [Layer.init, Mat.sameShape, Mat.zeros, h.1, h.2])]
      exact ⟨_, _, rfl, rfl, fun j => by simp [Layer.init, Mat.zeros]⟩
  · exact absurd hnew (by simp)

/-- Witness for the amended C5 at the concrete fresh layer `layerUnit`. -/
theorem cost_mse_no_staleness_check_witness :
    (¬ (xOne.rows = (matC 1 1 1).rows ∧ xOne.cols = (matC 1 1 1).cols) →
      layerUnit.cost_mse xOne xOne = none) ∧
    ((xOne.rows = (matC 1 1 1).rows ∧ xOne.cols = (matC 1 1 1).cols) →
      ∃ l' c, layerUnit.cost_mse xOne xOne = some (l', c) ∧
        c.len = xOne.cols ∧
        ∀ j, c.entry j =
          1 / 2 * ∑ i ∈ Finset.range xOne.rows, xOne.entry i j ^ 2) :=
  cost_mse_no_staleness_check identityActivation (matC 1 1 1) (matC 1 1 1)
    xOne xOne layerUnit rfl

/-! ## C7 — the value of `cost_mse` after a forward pass -/

/-- When the expected matrix has exactly the shape of the cached outputs,
`cost_mse` succeeds and stores half of each column's sum of squared
differences. -/
theorem cost_mse_eq (l : Layer) (inputs expected : Mat)
    (hr : expected.rows = l.outputs.rows) (hc : expected.cols = l.outputs.cols) :
    l.cost_mse inputs expected =
      some ({ l with costs := ⟨expected.cols, fun j =>
          1 / 2 * ∑ i ∈ Finset.range expected.rows,
            (l.outputs.entry i j - expected.entry i j) ^ 2⟩ },
        ⟨expected.cols, fun j =>
          1 / 2 * ∑ i ∈ Finset.range expected.rows,
            (l.outputs.entry i j - expected.entry i j) ^ 2⟩) := by
  rw [Layer.cost_mse, if_neg (by simp [Mat.sameShape, hr, hc])]

/-- C7: after a successful forward pass with inputs of matching width, and
for an expected matrix of the same shape as the produced output, `cost_mse`
returns a vector of length `expected.cols` whose `j`-th entry is
`1/2 · Σ_i (expected[i,j] − output[i,j])²`, where `output` is the matrix the
forward pass just returned (and cached). -/
theorem cost_mse_after_forward (l : Layer) (inputs expected : Mat)
    (hcols : inputs.cols = l.inputs_weights.rows)
    (hinv : l.inputs_weights.cols = l.outputs_weights.rows)
    (hEr : expected.rows = inputs.rows)
    (hEc : expected.cols = l.outputs_weights.cols) :
    ∃ l' out l'' c,
      l.forward_propagation inputs = some (.ok (l', out)) ∧
      l'.cost_mse inputs expected = some (l'', c) ∧
      c.len = expected.cols ∧
      ∀ j, c.entry j =
        1 / 2 * ∑ i ∈ Finset.range expected.rows,
          (expected.entry i j - out.entry i j) ^ 2 := by
  refine ⟨_, _, _, _, forward_propagation_eq l inputs hcols hinv,
    cost_mse_eq _ inputs expected hEr hEc, rfl, fun j => ?_⟩
  exact congrArg (fun s => 1 / 2 * s)
    (Finset.sum_congr rfl (fun i _ => by ring))

/-- Witness for C7 at the concrete layer `layerUnit`, input `[[1]]` and
expected outputs `[[0]]`. -/
theorem cost_mse_after_forward_witness :
    ∃ l' out l'' c,
      layerUnit.forward_propagation xOne = some (.ok (l', out)) ∧
      l'.cost_mse xOne (matC 1 1 0) = some (l'', c) ∧
      c.len = (matC 1 1 0).cols ∧
      ∀ j, c.entry j =
        1 / 2 * ∑ i ∈ Finset.range (matC 1 1 0).rows,
          ((matC 1 1 0).entry i j - out.entry i j) ^ 2 :=
  cost_mse_after_forward layerUnit xOne (matC 1 1 0) rfl rfl rfl rfl

/-! ## C2 — the backward pass

The source computes `outputs_delta = expected_outputs - self.outputs`
(src/layer.rs line 171), i.e. `expected − output`, while the claim's first
chain-rule step reads `output_error = (output − expected) ⊙ ...`. The two
definitions below follow the *claim's* words, to be compared against the
source embedding. -/

/-- Modelled from the claim's words (C2, step 1):
`output_error = (output − expected) ⊙
activation.compute_derivative(pre_activation_output)`. -/
def claimOutputError (l : Layer) (expected : Mat) : Mat :=
  (l.outputs.sub expected).hadamard (l.activation.derivM l.layer_outputs_sum)

/-- Modelled from the claim's words (C2, step 2):
`dOutputWeights = activated_hiddenᵗ · output_error`. -/
def claimDOutputWeights (l : Layer) (expected : Mat) : Mat :=
  l.layer_inputs_sum_activated.transpose.dot (claimOutputError l expected)

/-- Counterexample to C2 as stated: for `layerUnit` (Identity activation,
`1 × 1` unit weights), after `forward([[1]])` the code's `cost_gradient_mse`
with `expected = [[0]]` returns `dOutputWeights = [[-1]]`, while the claim's
formula `activated_hiddenᵗ · ((output − expected) ⊙ deriv)` gives `[[1]]`:
the code uses `expected − output`, the opposite sign. -/
theorem cost_gradient_mse_sign_counterexample :
    (match layerUnit.forward_propagation xOne with
      | some (.ok (l', _)) =>
        match l'.cost_gradient_mse xOne (matC 1 1 0) with
        | some (_, _, dOut) => some (dOut.entry 0 0)
        | none => none
      | _ => none) = some (-1) ∧
    (match layerUnit.forward_propagation xOne with
      | some (.ok (l', _)) =>
        some ((claimDOutputWeights l' (matC 1 1 0)).entry 0 0)
      | _ => none) = some 1 ∧
    some (-1 : ℚ) ≠ some (1 : ℚ) := by
  refine ⟨?_, ?_, by norm_num⟩ <;>
    norm_num [layerUnit, xOne, matC, Layer.init, Layer.forward_propagation,
      Layer.cost_gradient_mse, claimDOutputWeights, claimOutputError,
      Mat.dot, Mat.sub, Mat.hadamard, Mat.transpose, Mat.sameShape,
      Activation.computeM, Activation.derivM, identityActivation,
      Finset.sum_range_one, Mat.zeros]

/-- C2 as amended (sign convention flipped to the code's
`expected − output`): after a successful forward pass, `cost_gradient_mse`
returns the pair `(dInputWeights, dOutputWeights)` computed by the four
chain-rule steps with `output_error = (expected − output) ⊙
deriv(pre_activation_output)`, `dOutputWeights = activated_hiddenᵗ ·
output_error`, `hidden_error = (output_error · output_weightsᵗ) ⊙
deriv(pre_activation_hidden)`, `dInputWeights = inputsᵗ · hidden_error`,
each gradient matching the shape of the corresponding weight matrix. -/
theorem cost_gradient_mse_after_forward (l : Layer) (inputs expected : Mat)
    (hcols : inputs.cols = l.inputs_weights.rows)
    (hinv : l.inputs_weights.cols = l.outputs_weights.rows)
    (hEr : expected.rows = inputs.rows)
    (hEc : expected.cols = l.outputs_weights.cols) :
    ∃ l' out,
      l.forward_propagation inputs = some (.ok (l', out)) ∧
      (∃ l'',
        l'.cost_gradient_mse inputs expected =
          some (l'',
            inputs.transpose.dot
              ((((expected.sub out).hadamard
                  (l'.activation.derivM l'.layer_outputs_sum)).dot
                l'.outputs_weights.transpose).hadamard
                (l'.activation.derivM l'.layer_inputs_sum)),
            l'.layer_inputs_sum_activated.transpose.dot
              ((expected.sub out).hadamard
                (l'.activation.derivM l'.layer_outputs_sum)))) ∧
      (inputs.transpose.dot
          ((((expected.sub out).hadamard
              (l'.activation.derivM l'.layer_outputs_sum)).dot
            l'.outputs_weights.transpose).hadamard
            (l'.activation.derivM l'.layer_inputs_sum))).rows =
        l.inputs_weights.rows ∧
      (inputs.transpose.dot
          ((((expected.sub out).hadamard
              (l'.activation.derivM l'.layer_outputs_sum)).dot
            l'.outputs_weights.transpose).hadamard
            (l'.activation.derivM l'.layer_inputs_sum))).cols =
        l.inputs_weights.cols ∧
      (l'.layer_inputs_sum_activated.transpose.dot
          ((expected.sub out).hadamard
            (l'.activation.derivM l'.layer_outputs_sum))).rows =
        l.outputs_weights.rows ∧
      (l'.layer_inputs_sum_activated.transpose.dot
          ((expected.sub out).hadamard
            (l'.activation.derivM l'.layer_outputs_sum))).cols =
        l.outputs_weights.cols := by
  refine ⟨_, _, forward_propagation_eq l inputs hcols hinv, ?_, ?_, ?_, ?_, ?_⟩
  · simp only [Layer.cost_gradient_mse]
    rw [if_neg (by simp [Mat.sameShape, hEr, hEc])]
    rw [if_neg (by simp [Mat.sameShape, hEr, hEc])]
    rw [if_neg (by simp [hEr])]
    rw [if_neg (by simp [hEc])]
    rw [if_neg (by simp [Mat.sameShape, hEr, hinv])]
    rw [if_neg (by simp [hEr])]
    exact ⟨_, rfl⟩
  · simp [hcols]
  · simp [hinv]
  · simp [hinv]
  · simp [hEc]

/-- Witness for the amended C2 at `layerUnit`, input `[[1]]`, expected
`[[0]]`. -/
theorem cost_gradient_mse_after_forward_witness :
    ∃ l' out,
      layerUnit.forward_propagation xOne = some (.ok (l', out)) ∧
      (∃ l'',
        l'.cost_gradient_mse xOne (matC 1 1 0) =
          some (l'',
            xOne.transpose.dot
              (((((matC 1 1 0).sub out).hadamard
                  (l'.activation.derivM l'.layer_outputs_sum)).dot
                l'.outputs_weights.transpose).hadamard
                (l'.activation.derivM l'.layer_inputs_sum)),
            l'.layer_inputs_sum_activated.transpose.dot
              (((matC 1 1 0).sub out).hadamard
                (l'.activation.derivM l'.layer_outputs_sum)))) ∧
      (xOne.transpose.dot
          (((((matC 1 1 0).sub out).hadamard
              (l'.activation.derivM l'.layer_outputs_sum)).dot
            l'.outputs_weights.transpose).hadamard
            (l'.activation.derivM l'.layer_inputs_sum))).rows =
        layerUnit.inputs_weights.rows ∧
      (xOne.transpose.dot
          (((((matC 1 1 0).sub out).hadamard
              (l'.activation.derivM l'.layer_outputs_sum)).dot
            l'.outputs_weights.transpose).hadamard
            (l'.activation.derivM l'.layer_inputs_sum))).cols =
        layerUnit.inputs_weights.cols ∧
      (l'.layer_inputs_sum_activated.transpose.dot
          (((matC 1 1 0).sub out).hadamard
            (l'.activation.derivM l'.layer_outputs_sum))).rows =
        layerUnit.outputs_weights.rows ∧
      (l'.layer_inputs_sum_activated.transpose.dot
          (((matC 1 1 0).sub out).hadamard
            (l'.activation.derivM l'.layer_outputs_sum))).cols =
        layerUnit.outputs_weights.cols :=
  cost_gradient_mse_after_forward layerUnit xOne (matC 1 1 0) rfl rfl rfl rfl

/-! ## C8 — identity round trip -/

/-- C8: a single-layer network whose layer uses the `Identity` activation and
identity weight matrices reproduces its input exactly: `run_forward X`
succeeds and returns a matrix equal (as an array: same dimensions, same
entries) to `X`, for every `X` of matching width. -/
theorem identity_network_round_trip (n : Nat) (x : Mat) (l : Layer)
    (ha : l.activation = identityActivation)
    (hwi : l.inputs_weights = idMat n)
    (hwo : l.outputs_weights = idMat n)
    (hx : x.cols = n) :
    ∃ l' out,
      (NeuralNetwork.mk [l]).run_forward x = some (⟨[l']⟩, .ok out) ∧
      out.Eqv x := by
  have hfwd := forward_propagation_eq l x (by rw [hwi]; exact hx)
    (by rw [hwi, hwo]; rfl)
  rw [ha, hwi, hwo] at hfwd
  simp only [identity_computeM] at hfwd
  refine ⟨{ l with
      activation := identityActivation
      inputs_weights := idMat n
      outputs_weights := idMat n
      outputs := (x.dot (idMat n)).dot (idMat n)
      layer_inputs_sum := x.dot (idMat n)
      layer_inputs_sum_activated := x.dot (idMat n)
      layer_outputs_sum := (x.dot (idMat n)).dot (idMat n) },
    (x.dot (idMat n)).dot (idMat n), ?_, ?_⟩
  · simp [NeuralNetwork.run_forward, runForwardLoop, hfwd]
  unfold Mat.Eqv
  refine ⟨rfl, by simp [idMat, hx], ?_⟩
  intro i _ j hj
  have hj' : j < n := by simpa [idMat] using hj
  rw [dot_idMat_entry (x.dot (idMat n)) n i j (by simp [idMat]) hj',
    dot_idMat_entry x n i j hx hj']

/-- Witness for C8: the single-layer identity network on the input `[[5]]`. -/
theorem identity_network_round_trip_witness :
    ∃ l' out,
      (NeuralNetwork.mk
        [Layer.init identityActivation (idMat 1) (idMat 1)]).run_forward
          (matC 1 1 5) = some (⟨[l']⟩, .ok out) ∧
      out.Eqv (matC 1 1 5) :=
  identity_network_round_trip 1 (matC 1 1 5)
    (Layer.init identityActivation (idMat 1) (idMat 1)) rfl rfl rfl rfl

end RustNeuralnet
